import Mathlib

/-!
Verification of the LiteGen crawl dashboard frontend.

The repository's frontend (`src/frontend`) contains the crawl-creation form
(`crawl-form.tsx`), the crawl listing component (`crawl-list.tsx`), and the
dashboard route.  JavaScript strings are embedded as `List Char`, JavaScript
numbers used here as integers/naturals (timestamps in milliseconds as `Int`),
and the fractional progress percentage as `Rat`.  Platform builtins used by
the code (`String.prototype.trim`, the WHATWG `new URL` parser) are modelled
explicitly below.  Backend components absent from the sources (the job
controller's state machine and the persistence layer) are modelled from the
specification and marked as such in their doc comments.
-/

namespace LiteGen

/-- JavaScript strings, embedded as lists of characters. -/
abbrev JStr := List Char

/-- Model of the ECMAScript WhiteSpace / LineTerminator classification used by
`String.prototype.trim`: space, tab, line feed, carriage return, vertical tab,
form feed, no-break space, BOM. -/
def isJsWS (c : Char) : Bool :=
  c = ' ' || c = '\t' || c = '\n' || c = '\x0d' || c = '\x0b' || c = '\x0c' ||
  c.toNat = 0xA0 || c.toNat = 0xFEFF

/-- Model of JavaScript `s.trim()`: remove leading and trailing whitespace. -/
def jsTrim (s : JStr) : JStr :=
  List.rdropWhile isJsWS (List.dropWhile isJsWS s)

/-- JavaScript `a || b` on a string `a` (empty string is falsy). -/
def jsOrStr (a b : JStr) : JStr :=
  if a = [] then b else a

/-! ### Model of the WHATWG `new URL(input)` parser

`validateForm` in `crawl-form.tsx` decides URL validity by whether
`new URL(formData.website_url)` throws.  We model the accept/reject behaviour
of the WHATWG basic URL parser with no base URL: the input (after stripping
leading/trailing C0-control-or-space characters and removing interior
tab/newline characters) must begin with a scheme followed by `:`.  For the
special network schemes (`http`, `https`, `ws`, `wss`, `ftp`) a non-empty,
well-formed host is additionally required; `file` allows an empty host; any
other scheme takes an opaque path and always parses.  Percent-encoding,
IDNA and IPv6 host details are elided: hosts are checked for non-emptiness
and absence of forbidden code points, and an explicit port must be digits. -/

/-- C0 controls and space, stripped from both ends by the URL parser. -/
def isC0OrSpace (c : Char) : Bool := c.toNat ≤ 0x20

/-- ASCII tab or newline, removed everywhere by the URL parser. -/
def isTabOrNL (c : Char) : Bool := c = '\t' || c = '\n' || c = '\x0d'

/-- Input preprocessing of the WHATWG URL parser. -/
def urlPreprocess (s : JStr) : JStr :=
  (List.rdropWhile isC0OrSpace (List.dropWhile isC0OrSpace s)).filter
    (fun c => !isTabOrNL c)

/-- Characters allowed after the first character of a URL scheme. -/
def isSchemeChar (c : Char) : Bool :=
  c.isAlphanum || c = '+' || c = '-' || c = '.'

/-- Scan the remainder of a scheme, accumulating its lowercased characters;
succeeds on the terminating `:`, returning the scheme and the rest. -/
def splitSchemeAux (acc : JStr) : JStr → Option (JStr × JStr)
  | [] => none
  | c :: r =>
    if c = ':' then some (acc, r)
    else if isSchemeChar c then splitSchemeAux (acc ++ [c.toLower]) r
    else none

/-- Split `scheme:rest`; the first character must be ASCII alphabetic. -/
def splitScheme : JStr → Option (JStr × JStr)
  | [] => none
  | c :: r => if c.isAlpha then splitSchemeAux [c.toLower] r else none

/-- The special network schemes, which require a non-empty host. -/
def specialNetSchemes : List JStr :=
  [['h','t','t','p'], ['h','t','t','p','s'], ['w','s'], ['w','s','s'],
   ['f','t','p']]

/-- Code points forbidden in a URL host. -/
def forbiddenHostChar (c : Char) : Bool :=
  c = ' ' || c = '#' || c = '/' || c = ':' || c = '<' || c = '>' ||
  c = '?' || c = '@' || c = '[' || c = '\\' || c = ']' || c = '^' || c = '|'

/-- Drop the userinfo part of an authority: everything up to the last `@`. -/
def dropUserinfo (auth : JStr) : JStr :=
  if auth.contains '@' then
    ((auth.reverse.takeWhile (fun c => c ≠ '@'))).reverse
  else auth

/-- Split `host:port` at the first `:`; the port is what follows it. -/
def splitHostPort (hp : JStr) : JStr × JStr :=
  (hp.takeWhile (fun c => c ≠ ':'),
   (hp.dropWhile (fun c => c ≠ ':')).drop 1)

/-- After the scheme of a special URL: skip slashes, take the authority up to
the next delimiter, and check that it holds a non-empty well-formed host and,
if present, a numeric port. -/
def hasValidHost (rest : JStr) : Bool :=
  let r := rest.dropWhile (fun c => c = '/' || c = '\\')
  let auth := r.takeWhile (fun c => !(c = '/' || c = '\\' || c = '?' || c = '#'))
  let hp := dropUserinfo auth
  let host := (splitHostPort hp).1
  let port := (splitHostPort hp).2
  host ≠ [] && host.all (fun c => !forbiddenHostChar c) && port.all Char.isDigit

/-- Whether `new URL(s)` (no base) succeeds, per the model above. -/
def isValidURL (s : JStr) : Bool :=
  match splitScheme (urlPreprocess s) with
  | none => false
  | some (scheme, rest) =>
    if specialNetSchemes.contains scheme then hasValidHost rest
    else true

/-- The spec's acceptance criterion for a seed URL, from its words: the input
parses as an absolute URL whose scheme is `http` or `https`. -/
def isAbsoluteHttpUrl (s : JStr) : Bool :=
  match splitScheme (urlPreprocess s) with
  | none => false
  | some (scheme, rest) =>
    (scheme = ['h','t','t','p'] || scheme = ['h','t','t','p','s']) &&
      hasValidHost rest

/-! ### Crawl-creation form (`crawl-form.tsx`) -/

/-- The `PostCrawl` request body (`types.gen`): the form's `formData` state. -/
structure PostCrawl where
  website_url : JStr
  gemini_api_key : JStr
  url_filters : List JStr
deriving DecidableEq

/-- The `validationErrors` record: an optional message per validated field. -/
structure ValidationErrors where
  website_url : Option JStr
  gemini_api_key : Option JStr
deriving DecidableEq

/-- `Object.keys(errors).length === 0` for the two possible keys. -/
def ValidationErrors.isEmpty (e : ValidationErrors) : Bool :=
  e.website_url = none && e.gemini_api_key = none

/-- `validateForm` (crawl-form.tsx lines 35–54): the URL field errors when
empty or when `new URL` throws; the key field errors when empty. -/
def validateForm (d : PostCrawl) : ValidationErrors :=
  { website_url :=
      if d.website_url = [] then
        some "Website URL is required".toList
      else if isValidURL d.website_url then none
      else some "Please enter a valid URL".toList
    gemini_api_key :=
      if d.gemini_api_key = [] then
        some "Gemini API key is required".toList
      else none }

/-- `handleAddUrlFilter` (crawl-form.tsx lines 56–67), restricted to the
`(url_filters, urlFilterInput)` state it touches: when the trimmed input is
non-empty and not already present, append it and clear the input box. -/
def handleAddUrlFilter (filters : List JStr) (input : JStr) :
    List JStr × JStr :=
  if jsTrim input ≠ [] ∧ ¬ filters.contains (jsTrim input) then
    (filters ++ [jsTrim input], [])
  else (filters, input)

/-- `handleRemoveUrlFilter` (crawl-form.tsx lines 69–74): keep every filter
different from the removed one. -/
def handleRemoveUrlFilter (filters : List JStr) (f : JStr) : List JStr :=
  filters.filter (fun x => x ≠ f)

/-- The React state of `CrawlForm` that `handleSubmit` reads and writes. -/
structure FormState where
  formData : PostCrawl
  urlFilterInput : JStr
  isLoading : Bool
  error : Option JStr
  success : Bool
  validationErrors : ValidationErrors
deriving DecidableEq

/-- Outcome of `apiCrawlCreateCrawl`: success, an error response with an
optional `detail`, or a thrown exception with a message. -/
inductive ApiOutcome where
  | ok
  | errResp (detail : Option JStr)
  | thrown (msg : JStr)
deriving DecidableEq

/-- `response.error.detail || 'Failed to create crawl'` — an absent or empty
detail falls back to the default message. -/
def errRespMessage (detail : Option JStr) : JStr :=
  match detail with
  | none => "Failed to create crawl".toList
  | some d => jsOrStr d "Failed to create crawl".toList

/-- `handleSubmit` (crawl-form.tsx lines 76–116) as a state transition on the
form, parameterised by the API outcome; the second component records whether
the create request was issued (it is not when validation fails).  The returned
state is the one after the async handler finishes; on success the 2-second
reset runs later as `crawlCreatedTimeout`. -/
def handleSubmit (s : FormState) (r : ApiOutcome) : FormState × Bool :=
  let errs := validateForm s.formData
  if ¬ errs.isEmpty then
    ({ s with validationErrors := errs }, false)
  else
    let s1 : FormState :=
      { s with validationErrors := errs, isLoading := true,
               error := none, success := false }
    match r with
    | .errResp d =>
      ({ s1 with error := some (errRespMessage d), isLoading := false }, true)
    | .thrown m =>
      ({ s1 with error := some (jsOrStr m "Failed to create crawl".toList),
                 isLoading := false }, true)
    | .ok =>
      ({ s1 with success := true, isLoading := false }, true)

/-- The `setTimeout` callback of the success path (crawl-form.tsx lines
101–110): reset the form data and the filter input, clear the success flag. -/
def crawlCreatedTimeout (s : FormState) : FormState :=
  { s with formData := ⟨[], [], []⟩, urlFilterInput := [], success := false }

/-! ### Crawl listing (`crawl-list.tsx` and the dashboard route) -/

/-- The `totalSeconds` computation duplicated verbatim in `getEstimatedTime`
(crawl-list.tsx lines 135–139) and `getProgressPercentage` (lines 159–163):
60 seconds, plus 90 for every complete group of 10 pages beyond the first. -/
def estimatedTotalSeconds (pages : Nat) : Nat :=
  if pages ≥ 10 then 60 + (pages / 10 - 1) * 90 else 60

/-- `getProgressPercentage` (crawl-list.tsx lines 156–170).  Timestamps are
milliseconds; `Math.floor` of the division by 1000 is integer floor division;
the resulting percentage is an exact rational clamped to `[0, 100]`. -/
def getProgressPercentage (pages : Nat) (createdTime currentTime : Int) :
    Rat :=
  if pages = 0 then 0
  else
    let totalSeconds := estimatedTotalSeconds pages
    let elapsedSeconds := Int.fdiv (currentTime - createdTime) 1000
    min 100 (max 0 ((elapsedSeconds : Rat) / (totalSeconds : Rat) * 100))

/-- The debounced search effect of `CrawlList` (crawl-list.tsx lines 78–84):
`onSearch(searchTerm.trim() || undefined)`. -/
def searchArg (searchTerm : JStr) : Option JStr :=
  if jsTrim searchTerm = [] then none else some (jsTrim searchTerm)

/-- `loadCrawls` (dashboard route, lines 21–36): the query passed to
`apiCrawlListCrawls` is `searchTerm ? { term: searchTerm } : undefined`. -/
def loadCrawlsQuery (searchTerm : Option JStr) : Option JStr :=
  match searchTerm with
  | none => none
  | some t => if t = [] then none else some t

/-- The `term` parameter the dashboard issues for a raw search-box input:
the composition of the debounced search with `loadCrawls`. -/
def listQuery (input : JStr) : Option JStr :=
  loadCrawlsQuery (searchArg input)

/-! ### Backend job model

The job pipeline itself (Litestar backend) is not among the sources; the
definitions below are modelled from the specification (§3, §4.1, §4.5, §6)
and are marked so. -/

/-- Modelled from the spec (§4.1): the four job states. -/
inductive JobStatus where
  | pending
  | in_progress
  | completed
  | failed
deriving DecidableEq

/-- Modelled from the spec (§3): the observable per-job state — status, page
count, the two optional output document handles, and a failure reason. -/
structure JobState where
  status : JobStatus
  pages : Nat
  summary_doc : Option JStr
  full_doc : Option JStr
  failureReason : Option JStr
deriving DecidableEq

/-- Modelled from the spec (§3): a freshly created job — `pending`, no pages
processed, no output documents, no failure reason. -/
def jobInit : JobState :=
  { status := .pending, pages := 0, summary_doc := none, full_doc := none,
    failureReason := none }

/-- Modelled from the spec (§4.1, §4.5): the job state machine.  A pending
job starts; an in-progress job processes pages one at a time; completion
records both output handles atomically; failure (including cancellation and
timeout) records a reason.  No transition leaves `completed` or `failed`. -/
inductive JobStep : JobState → JobState → Prop where
  | start (s : JobState) :
      s.status = .pending → JobStep s { s with status := .in_progress }
  | page (s : JobState) :
      s.status = .in_progress → JobStep s { s with pages := s.pages + 1 }
  | complete (s : JobState) (h1 h2 : JStr) :
      s.status = .in_progress →
      JobStep s { s with status := .completed, summary_doc := some h1,
                         full_doc := some h2 }
  | fail (s : JobState) (reason : JStr) :
      s.status = .pending ∨ s.status = .in_progress →
      JobStep s { s with status := .failed, failureReason := some reason }

/-- A job state observable at some point of a run: reachable from the initial
state by the state machine. -/
def JobReachable (s : JobState) : Prop :=
  Relation.ReflTransGen JobStep jobInit s

/-- The job metadata record exposed to the listing layer (the frontend's
`Crawl` type: id, status, seed URL, page count, creation timestamp, filters,
and the two optional document handles `llms` / `llms_full`). -/
structure Crawl where
  id : Nat
  status : JobStatus
  website_url : JStr
  pages : Nat
  created_at : JStr
  url_filters : List JStr
  llms : Option JStr
  llms_full : Option JStr
deriving DecidableEq

/-- Whether `needle` occurs as a contiguous substring of `hay`. -/
def startsWithSub : JStr → JStr → Bool
  | [], _ => true
  | _ :: _, [] => false
  | a :: as, b :: bs => a = b && startsWithSub as bs

/-- Substring occurrence test used to model the search filter. -/
def hasSub (needle hay : JStr) : Bool :=
  match hay with
  | [] => needle = []
  | _ :: t => startsWithSub needle hay || hasSub needle t

/-- Modelled from the spec (§6): `ListCrawls(searchTerm?)` is a read-only
query over job metadata; a present `term` filters by substring match against
the seed website URL, an absent one returns the unfiltered listing. -/
def listCrawls (jobs : List Crawl) (term : Option JStr) : List Crawl :=
  match term with
  | none => jobs
  | some t => jobs.filter (fun j => hasSub t j.website_url)

/-- Modelled from the spec (§3, §6): the job record persisted at creation is
built from the seed URL and the filters (plus system-assigned id and
timestamp); the credential is used only in-memory and is not part of it. -/
def persistedJob (id : Nat) (createdAt : JStr) (websiteUrl : JStr)
    (urlFilters : List JStr) : Crawl :=
  { id := id, status := .pending, website_url := websiteUrl, pages := 0,
    created_at := createdAt, url_filters := urlFilters, llms := none,
    llms_full := none }

/-- Modelled from the spec (§6): the record `CreateCrawl` persists for a
given request body. -/
def persistedJobOf (id : Nat) (createdAt : JStr) (p : PostCrawl) : Crawl :=
  persistedJob id createdAt p.website_url p.url_filters

/-! ### Sequences of filter-list operations -/

/-- A user action on the filter list: typing `input` and pressing add, or
clicking a badge to remove `f`. -/
inductive FilterOp where
  | add (input : JStr)
  | remove (f : JStr)

/-- Apply one action to the `url_filters` state (the add action also clears
the input box; only the resulting list is tracked here). -/
def applyFilterOp (filters : List JStr) : FilterOp → List JStr
  | .add input => (handleAddUrlFilter filters input).1
  | .remove f => handleRemoveUrlFilter filters f

/-- The filter list after a sequence of actions, starting from the initial
empty list. -/
def runFilterOps (ops : List FilterOp) : List JStr :=
  ops.foldl applyFilterOp []

/-! ### Helper lemmas -/

/-- If dropping leading whitespace from `l ++ t` changes nothing, the same
holds for `l` alone. -/
theorem dropWhile_eq_self_append {p : Char → Bool} {l t : JStr}
    (h : (l ++ t).dropWhile p = l ++ t) : l.dropWhile p = l := by
  rw [List.dropWhile_eq_self_iff] at h ⊢
  intro hl
  have hl2 : 0 < (l ++ t).length := by
    simp only [List.length_append]
    omega
  have h0 := h hl2
  simpa [List.get_eq_getElem, List.getElem_append_left hl] using h0

/-- Trimming is idempotent. -/
theorem jsTrim_idem (s : JStr) : jsTrim (jsTrim s) = jsTrim s := by
  unfold jsTrim
  set A := List.dropWhile isJsWS s with hA
  have h1 : List.dropWhile isJsWS A = A := List.dropWhile_idempotent isJsWS s
  obtain ⟨t, ht⟩ := List.rdropWhile_prefix isJsWS A
  have h2 : List.dropWhile isJsWS (List.rdropWhile isJsWS A) =
      List.rdropWhile isJsWS A := by
    apply dropWhile_eq_self_append (t := t)
    rw [ht, h1]
  rw [h2, List.rdropWhile_idempotent]

/-- The invariant maintained by the filter-list operations: every entry is a
non-empty fixed point of trimming, and there are no duplicates. -/
def FilterInv (L : List JStr) : Prop :=
  (∀ e ∈ L, e ≠ [] ∧ jsTrim e = e) ∧ L.Nodup

/-- Adding a filter preserves the invariant. -/
theorem filterInv_add {L : List JStr} (h : FilterInv L) (input : JStr) :
    FilterInv (handleAddUrlFilter L input).1 := by
  obtain ⟨helem, hnd⟩ := h
  unfold handleAddUrlFilter
  split
  · rename_i hc
    obtain ⟨hne, hnc⟩ := hc
    constructor
    · intro e he
      rcases List.mem_append.mp he with h1 | h2
      · exact helem e h1
      · rcases List.mem_singleton.mp h2 with rfl
        exact ⟨hne, jsTrim_idem input⟩
    · have hnm : jsTrim input ∉ L := by
        intro hm
        exact hnc (List.elem_eq_true_of_mem hm)
      simp [List.nodup_append, hnd, hnm]
  · exact ⟨helem, hnd⟩

/-- Removing a filter preserves the invariant. -/
theorem filterInv_remove {L : List JStr} (h : FilterInv L) (f : JStr) :
    FilterInv (handleRemoveUrlFilter L f) := by
  obtain ⟨helem, hnd⟩ := h
  refine ⟨fun e he => helem e (List.mem_of_mem_filter he), hnd.filter _⟩

/-- Any sequence of filter operations preserves the invariant. -/
theorem filterInv_foldl (ops : List FilterOp) :
    ∀ L, FilterInv L → FilterInv (ops.foldl applyFilterOp L) := by
  induction ops with
  | nil => exact fun L h => h
  | cons op rest ih =>
    intro L h
    simp only [List.foldl_cons]
    apply ih
    cases op with
    | add input => exact filterInv_add h input
    | remove f => exact filterInv_remove h f

/-- The empty list satisfies the invariant. -/
theorem filterInv_nil : FilterInv [] :=
  ⟨fun e he => absurd he (List.not_mem_nil e), List.nodup_nil⟩

/-- The document-handle invariant: both handles are recorded in `completed`
and neither is in any other status. -/
def DocsInv (s : JobState) : Prop :=
  (s.status = .completed → s.summary_doc ≠ none ∧ s.full_doc ≠ none) ∧
  (s.status ≠ .completed → s.summary_doc = none ∧ s.full_doc = none)

/-- The initial job state satisfies the document-handle invariant. -/
theorem docsInv_init : DocsInv jobInit :=
  ⟨fun h => absurd h (by decide), fun _ => ⟨rfl, rfl⟩⟩

/-- Every transition preserves the document-handle invariant. -/
theorem docsInv_step {s t : JobState} (h : DocsInv s) (hst : JobStep s t) :
    DocsInv t := by
  obtain ⟨hc, hnc⟩ := h
  cases hst with
  | start hp =>
    refine ⟨fun hcomp => absurd hcomp (by simp), fun _ => ?_⟩
    simpa using hnc (by simp [hp])
  | page hp =>
    refine ⟨fun hcomp => ?_, fun hncomp => ?_⟩
    · simpa using hc (by simpa using hcomp)
    · simpa using hnc (by simpa using hncomp)
  | complete h1 h2 hp =>
    exact ⟨fun _ => by simp, fun hncomp => absurd (by simp) hncomp⟩
  | fail reason hp =>
    refine ⟨fun hcomp => absurd hcomp (by simp), fun _ => ?_⟩
    have hs : s.status ≠ .completed := by
      rcases hp with h | h <;> simp [h]
    simpa using hnc hs

/-- Every reachable job state satisfies the document-handle invariant. -/
theorem docsInv_reachable {s : JobState} (h : JobReachable s) : DocsInv s := by
  unfold JobReachable at h
  induction h with
  | refl => exact docsInv_init
  | tail h1 h2 ih => exact docsInv_step ih h2

/-- No transition starts from a terminal state. -/
theorem jobStep_not_terminal {s t : JobState} (h : JobStep s t) :
    s.status ≠ .completed ∧ s.status ≠ .failed := by
  cases h with
  | start hp => simp [hp]
  | page hp => simp [hp]
  | complete h1 h2 hp => simp [hp]
  | fail reason hp => rcases hp with hp | hp <;> simp [hp]

/-! ### Claim theorems -/

/-- C2: after every sequence of add-filter and remove-filter operations on
the crawl form (starting from the initial empty list), `url_filters` contains
only non-empty entries that are fixed points of trimming (no leading or
trailing whitespace) and contains no duplicate entries. -/
theorem filter_list_invariant (ops : List FilterOp) :
    (∀ e ∈ runFilterOps ops, e ≠ [] ∧ jsTrim e = e) ∧
    (runFilterOps ops).Nodup :=
  filterInv_foldl ops [] filterInv_nil

/-- Witness for C2 on a concrete operation sequence. -/
theorem filter_list_invariant_witness :
    ("b".toList ≠ [] ∧ jsTrim "b".toList = "b".toList) ∧
    (runFilterOps [FilterOp.add " a ".toList, FilterOp.add "a".toList,
      FilterOp.add " b ".toList, FilterOp.remove "a".toList]).Nodup :=
  ⟨(filter_list_invariant [FilterOp.add " a ".toList, FilterOp.add "a".toList,
      FilterOp.add " b ".toList, FilterOp.remove "a".toList]).1
      "b".toList (by decide),
   (filter_list_invariant [FilterOp.add " a ".toList, FilterOp.add "a".toList,
      FilterOp.add " b ".toList, FilterOp.remove "a".toList]).2⟩

/-- C9: adding a filter whose trimmed form is non-empty and not already
present and then removing that entry restores the original list; adding a
filter whose trimmed form is already present or empty leaves the list
unchanged. -/
theorem filter_add_remove_round_trip (L : List JStr) (f : JStr) :
    (jsTrim f ≠ [] → jsTrim f ∉ L →
      handleRemoveUrlFilter (handleAddUrlFilter L f).1 (jsTrim f) = L) ∧
    (jsTrim f ∈ L ∨ jsTrim f = [] → (handleAddUrlFilter L f).1 = L) := by
  constructor
  · intro hne hnm
    unfold handleAddUrlFilter handleRemoveUrlFilter
    rw [if_pos ⟨hne, fun hc => hnm (List.mem_of_elem_eq_true hc)⟩]
    simp only [List.filter_append]
    have h1 : L.filter (fun x => x ≠ jsTrim f) = L := by
      apply List.filter_eq_self.mpr
      intro a ha
      simp only [ne_eq, decide_eq_true_eq]
      exact fun h => hnm (h ▸ ha)
    have h2 : [jsTrim f].filter (fun x => x ≠ jsTrim f) = [] := by simp
    rw [h1, h2, List.append_nil]
  · intro h
    unfold handleAddUrlFilter
    rw [if_neg]
    rintro ⟨hne, hnc⟩
    rcases h with hm | he
    · exact hnc (List.elem_eq_true_of_mem hm)
    · exact hne he

/-- Witness for C9: a fresh filter round-trips; a duplicate add is a no-op. -/
theorem filter_add_remove_round_trip_witness :
    handleRemoveUrlFilter
      (handleAddUrlFilter ["a".toList] " b ".toList).1
      (jsTrim " b ".toList) = ["a".toList] ∧
    (handleAddUrlFilter ["a".toList] "a".toList).1 = ["a".toList] :=
  ⟨(filter_add_remove_round_trip ["a".toList] " b ".toList).1
      (by decide) (by decide),
   (filter_add_remove_round_trip ["a".toList] "a".toList).2
      (Or.inl (by decide))⟩

/-- C3: at every observable point of a job's run, the two output document
handles are both set exactly when the status is `completed`, and the job
never exposes exactly one of them. -/
theorem output_docs_atomicity (s : JobState) (h : JobReachable s) :
    (s.summary_doc.isSome = true ∧ s.full_doc.isSome = true ↔
      s.status = .completed) ∧
    s.summary_doc.isSome = s.full_doc.isSome := by
  obtain ⟨hc, hnc⟩ := docsInv_reachable h
  by_cases hs : s.status = .completed
  · obtain ⟨h1, h2⟩ := hc hs
    have e1 : s.summary_doc.isSome = true := Option.isSome_iff_ne_none.mpr h1
    have e2 : s.full_doc.isSome = true := Option.isSome_iff_ne_none.mpr h2
    exact ⟨⟨fun _ => hs, fun _ => ⟨e1, e2⟩⟩, e1.trans e2.symm⟩
  · obtain ⟨h1, h2⟩ := hnc hs
    have e1 : s.summary_doc.isSome = false := by rw [h1]; rfl
    have e2 : s.full_doc.isSome = false := by rw [h2]; rfl
    refine ⟨⟨fun hp => absurd hp.1 (by simp [e1]), fun hcomp => absurd hcomp hs⟩,
      e1.trans e2.symm⟩

/-- Witness for C3 at the initial (reachable) job state. -/
theorem output_docs_atomicity_witness :
    jobInit.summary_doc.isSome = jobInit.full_doc.isSome :=
  (output_docs_atomicity jobInit Relation.ReflTransGen.refl).2

/-- C4: a job's status is always one of exactly `pending`, `in_progress`,
`completed`, `failed`, and once it is `completed` or `failed` every later
observation shows the same status. -/
theorem job_status_state_machine (s : JobState) :
    (s.status = .pending ∨ s.status = .in_progress ∨
     s.status = .completed ∨ s.status = .failed) ∧
    ∀ t, Relation.ReflTransGen JobStep s t →
      s.status = .completed ∨ s.status = .failed → t.status = s.status := by
  constructor
  · cases h : s.status <;> simp
  · intro t ht hterm
    induction ht with
    | refl => rfl
    | tail h1 h2 ih =>
      obtain ⟨hcn, hfn⟩ := jobStep_not_terminal h2
      rcases hterm with h | h
      · exact absurd (ih.trans h) hcn
      · exact absurd (ih.trans h) hfn

/-- Witness for C4 at a concrete terminal state. -/
theorem job_status_state_machine_witness :
    (jobInit.status = .pending ∨ jobInit.status = .in_progress ∨
     jobInit.status = .completed ∨ jobInit.status = .failed) ∧
    ({ jobInit with status := .failed } : JobState).status =
      ({ jobInit with status := .failed } : JobState).status :=
  ⟨(job_status_state_machine jobInit).1,
   (job_status_state_machine { jobInit with status := .failed }).2 _
      Relation.ReflTransGen.refl (Or.inr rfl)⟩

/-- C1 fails as stated: `validateForm` accepts `mailto:hello` (it records no
`website_url` error), yet that input does not parse as an absolute HTTP(S)
URL. -/
theorem url_validation_counterexample :
    (validateForm ⟨"mailto:hello".toList, "k".toList, []⟩).website_url = none ∧
    isAbsoluteHttpUrl "mailto:hello".toList = false := by
  constructor <;> decide

/-- C1 (amended): `validateForm` accepts the `website_url` exactly when it
parses as an absolute URL of any scheme (the behaviour of `new URL`), not
only HTTP(S); when it does not parse, the submission is rejected — the create
request is never issued and a validation error is recorded for the field. -/
theorem url_validation_any_scheme (s : FormState) (r : ApiOutcome) :
    ((validateForm s.formData).website_url = none ↔
      isValidURL s.formData.website_url = true) ∧
    (isValidURL s.formData.website_url = false →
      (handleSubmit s r).2 = false ∧
      (handleSubmit s r).1.validationErrors.website_url ≠ none) := by
  have hiff : (validateForm s.formData).website_url = none ↔
      isValidURL s.formData.website_url = true := by
    by_cases h0 : s.formData.website_url = []
    · have h1 : (validateForm s.formData).website_url =
          some "Website URL is required".toList := by
        simp [validateForm, h0]
      rw [h1, h0]
      decide
    · by_cases hv : isValidURL s.formData.website_url
      · simp [validateForm, h0, hv]
      · simp [validateForm, h0, hv]
  refine ⟨hiff, fun hv => ?_⟩
  have hw : (validateForm s.formData).website_url ≠ none := by
    intro h
    rw [hiff.mp h] at hv
    cases hv
  have hie : (validateForm s.formData).isEmpty = false := by
    unfold ValidationErrors.isEmpty
    cases hval : (validateForm s.formData).website_url with
    | none => exact absurd hval hw
    | some msg => simp [hval]
  constructor
  · simp [handleSubmit, hie]
  · simpa [handleSubmit, hie] using hw

/-- Witness for C1 (amended): an unparsable URL never reaches the API. -/
theorem url_validation_any_scheme_witness :
    (handleSubmit
      ⟨⟨"notaurl".toList, "k".toList, []⟩, [], false, none, false,
        ⟨none, none⟩⟩ ApiOutcome.ok).2 = false :=
  ((url_validation_any_scheme
      ⟨⟨"notaurl".toList, "k".toList, []⟩, [], false, none, false,
        ⟨none, none⟩⟩ ApiOutcome.ok).2 (by decide)).1

/-- C5: for every search-box input, the dashboard issues the list query with
the trimmed input as the `term` parameter, and with no `term` parameter at
all when the input trims to empty — in which case the (spec-modelled) listing
is unfiltered; when a term is present every listed job's seed URL contains it
as a substring. -/
theorem list_crawls_search (input : JStr) (jobs : List Crawl) :
    (jsTrim input = [] →
      listQuery input = none ∧ listCrawls jobs (listQuery input) = jobs) ∧
    (jsTrim input ≠ [] →
      listQuery input = some (jsTrim input) ∧
      ∀ j ∈ listCrawls jobs (listQuery input),
        hasSub (jsTrim input) j.website_url = true) := by
  constructor
  · intro h
    have hq : listQuery input = none := by
      unfold listQuery searchArg
      rw [if_pos h]
      rfl
    exact ⟨hq, by rw [hq]; rfl⟩
  · intro h
    have hq : listQuery input = some (jsTrim input) := by
      unfold listQuery searchArg loadCrawlsQuery
      rw [if_neg h]
      simp [h]
    refine ⟨hq, ?_⟩
    rw [hq]
    intro j hj
    unfold listCrawls at hj
    exact (List.mem_filter.mp hj).2

/-- Witness for C5: a whitespace-only input issues no term, a non-blank one
issues its trimmed form. -/
theorem list_crawls_search_witness :
    listQuery "   ".toList = none ∧
    listQuery " doc ".toList = some (jsTrim " doc ".toList) :=
  ⟨((list_crawls_search "   ".toList []).1 (by decide)).1,
   ((list_crawls_search " doc ".toList []).2 (by decide)).1⟩

/-- C6: the client-side estimated total duration is exactly 60 seconds for
1–9 pages, and `60 + (p / 10 - 1) * 90` seconds for `p ≥ 10` pages — each
complete group of 10 pages beyond the first adds 90 seconds. -/
theorem eta_base_unit (p : Nat) :
    (1 ≤ p → p ≤ 9 → estimatedTotalSeconds p = 60) ∧
    (10 ≤ p → estimatedTotalSeconds p = 60 + (p / 10 - 1) * 90) := by
  constructor
  · intro h1 h9
    unfold estimatedTotalSeconds
    rw [if_neg (by omega)]
  · intro h10
    unfold estimatedTotalSeconds
    rw [if_pos h10]

/-- Witness for C6 at 5 and 25 pages. -/
theorem eta_base_unit_witness :
    estimatedTotalSeconds 5 = 60 ∧
    estimatedTotalSeconds 25 = 60 + (25 / 10 - 1) * 90 :=
  ⟨(eta_base_unit 5).1 (by decide) (by decide),
   (eta_base_unit 25).2 (by decide)⟩

/-- C7: on a successful creation the form reports success and, once the
reset callback runs, the form state's `gemini_api_key` is the empty string;
the (spec-modelled) persisted job record is independent of the supplied key,
so the key is never persisted. -/
theorem credential_confinement (s : FormState)
    (hval : (validateForm s.formData).isEmpty = true) :
    (handleSubmit s ApiOutcome.ok).1.success = true ∧
    (crawlCreatedTimeout
        (handleSubmit s ApiOutcome.ok).1).formData.gemini_api_key = [] ∧
    ∀ (id : Nat) (createdAt : JStr) (p1 p2 : PostCrawl),
      p1.website_url = p2.website_url → p1.url_filters = p2.url_filters →
      persistedJobOf id createdAt p1 = persistedJobOf id createdAt p2 := by
  refine ⟨?_, ?_, ?_⟩
  · simp [handleSubmit, hval]
  · simp [crawlCreatedTimeout]
  · intro id createdAt p1 p2 hw hf
    unfold persistedJobOf persistedJob
    rw [hw, hf]

/-- Witness for C7 on a concrete valid submission. -/
theorem credential_confinement_witness :
    (crawlCreatedTimeout
      (handleSubmit
        ⟨⟨"https://example.com".toList, "k".toList, []⟩, [], false, none,
          false, ⟨none, none⟩⟩
        ApiOutcome.ok).1).formData.gemini_api_key = [] :=
  (credential_confinement
    ⟨⟨"https://example.com".toList, "k".toList, []⟩, [], false, none,
      false, ⟨none, none⟩⟩ (by decide)).2.1

/-- C8: `getProgressPercentage` always lies in `[0, 100]`, and is exactly 0
for a page count of 0, whatever the creation and current timestamps. -/
theorem progress_percentage_bounded (p : Nat) (c t : Int) :
    (0 ≤ getProgressPercentage p c t ∧ getProgressPercentage p c t ≤ 100) ∧
    getProgressPercentage 0 c t = 0 := by
  constructor
  · by_cases h0 : p = 0
    · simp [getProgressPercentage, h0]
    · simp only [getProgressPercentage, if_neg h0]
      constructor
      · exact le_min (by norm_num) (le_max_left 0 _)
      · exact min_le_left _ _
  · rfl

/-- C10: when the create request returns an error response or throws, the
entered form data and the filter input are unchanged, the success flag is
false, and the error message is set. -/
theorem form_unchanged_on_creation_failure (s : FormState) (d : Option JStr)
    (m : JStr) (hval : (validateForm s.formData).isEmpty = true) :
    ((handleSubmit s (ApiOutcome.errResp d)).1.formData = s.formData ∧
     (handleSubmit s (ApiOutcome.errResp d)).1.urlFilterInput =
       s.urlFilterInput ∧
     (handleSubmit s (ApiOutcome.errResp d)).1.success = false ∧
     (handleSubmit s (ApiOutcome.errResp d)).1.error =
       some (errRespMessage d)) ∧
    ((handleSubmit s (ApiOutcome.thrown m)).1.formData = s.formData ∧
     (handleSubmit s (ApiOutcome.thrown m)).1.urlFilterInput =
       s.urlFilterInput ∧
     (handleSubmit s (ApiOutcome.thrown m)).1.success = false ∧
     (handleSubmit s (ApiOutcome.thrown m)).1.error =
       some (jsOrStr m "Failed to create crawl".toList)) := by
  simp [handleSubmit, hval]

/-- Witness for C10 on a concrete valid submission and failing request. -/
theorem form_unchanged_on_creation_failure_witness :
    (handleSubmit
      ⟨⟨"https://a.example".toList, "k".toList, []⟩, [], false, none, false,
        ⟨none, none⟩⟩ (ApiOutcome.errResp none)).1.formData =
      (⟨"https://a.example".toList, "k".toList, []⟩ : PostCrawl) ∧
    (handleSubmit
      ⟨⟨"https://a.example".toList, "k".toList, []⟩, [], false, none, false,
        ⟨none, none⟩⟩ (ApiOutcome.thrown "boom".toList)).1.success = false :=
  ⟨((form_unchanged_on_creation_failure
      ⟨⟨"https://a.example".toList, "k".toList, []⟩, [], false, none, false,
        ⟨none, none⟩⟩ none "boom".toList (by decide)).1).1,
   ((form_unchanged_on_creation_failure
      ⟨⟨"https://a.example".toList, "k".toList, []⟩, [], false, none, false,
        ⟨none, none⟩⟩ none "boom".toList (by decide)).2).2.2.1⟩

end LiteGen
